import Mathlib

/-!
# Shallow embedding of `convert_video_to_av1`

The repository holds two single-file Go programs, both named
`convert_video_to_av1.go`:

* the **generic variant** (first file): loads `config.json`
  (`BasePath`, `OutputPath`, `FfmpegPath`), recursively scans `BasePath`
  for video files, and converts each into `<OutputPath>/<base>_av1.mkv`
  via an `ffmpeg` subprocess;
* the **filtered variant** (second file): loads `config.json`
  (`BasePath`, `FfmpegPath`), scans only the immediate children of
  `BasePath` whose name is exactly eight ASCII digits (`^\d{8}$`), probes
  each file's codec with `ffprobe`, skips files already in AV1, and
  converts the rest next to the input file.

External effects are embedded explicitly:

* the filesystem seen by `os.Stat` / `os.MkdirAll` / `exec.LookPath` is an
  oracle record `FSOracle`;
* a `filepath.WalkDir` traversal is its sequence of callback invocations
  (`WalkEvent`: path, directory flag, per-entry error flag) — the
  traversal itself is Go standard-library code, the repository only
  supplies the callback;
* `os.ReadDir` output is a list of `DirEntry`;
* the `ffprobe` subprocess of `getVideoCodec` is an oracle
  `probe : String → Option String` returning the trimmed codec name on
  success and `none` on probe failure;
* the `ffmpeg` subprocess is an oracle `encExit : Cmd → Nat` giving the
  encoder's exit status for the exact command spawned; the spawned
  commands are collected as a trace, so "no encoder subprocess is
  spawned" is "the trace is empty".

Path manipulation mirrors Go's `path/filepath` under Unix rules
(separator `/`, `runtime.GOOS ≠ "windows"`).
-/

namespace ConvertAV1

/-! ## Go `strings` and `path/filepath` helpers (Unix rules) -/

/-- Go `strings.ToLower` (the extensions and codec names involved are
ASCII, where `Char.toLower` agrees with Go). -/
def strToLower (s : String) : String := ⟨s.data.map Char.toLower⟩

/-- Test `hasSublist sub l`: true iff `sub` occurs contiguously in `l`. -/
def hasSublist (sub : List Char) : List Char → Bool
  | [] => sub.isEmpty
  | c :: rest => sub.isPrefixOf (c :: rest) || hasSublist sub rest

/-- Go `strings.Contains s sub`. -/
def strContains (s sub : String) : Bool := hasSublist sub.data s.data

/-- Go `strings.TrimSuffix s sfx`. -/
def trimSuffix (s sfx : String) : String :=
  if sfx.data.isSuffixOf s.data then ⟨s.data.take (s.data.length - sfx.data.length)⟩
  else s

/-- Split a character list at every occurrence of `sep`
(`splitOnChar '/' "a//b" = ["a", "", "b"]` as char lists). -/
def splitOnChar (sep : Char) : List Char → List (List Char)
  | [] => [[]]
  | c :: rest =>
    let r := splitOnChar sep rest
    if c = sep then [] :: r
    else match r with
      | [] => [[c]]
      | h :: t => (c :: h) :: t

/-- Join component lists with a separator character. -/
def joinSep (sep : Char) : List (List Char) → List Char
  | [] => []
  | [x] => x
  | x :: xs => x ++ sep :: joinSep sep xs

/-- Stack pass of Go `path/filepath.Clean`: drop empty and `.` components,
let `..` cancel a preceding component (or be dropped at the root of a
rooted path). The `stack` accumulates kept components in reverse. -/
def cleanStack (rooted : Bool) : List (List Char) → List (List Char) → List (List Char)
  | stack, [] => stack.reverse
  | stack, c :: rest =>
    if c = [] ∨ c = ['.'] then cleanStack rooted stack rest
    else if c = ['.', '.'] then
      match stack with
      | [] => if rooted then cleanStack rooted [] rest
              else cleanStack rooted [['.', '.']] rest
      | top :: tl =>
        if top = ['.', '.'] then cleanStack rooted (c :: top :: tl) rest
        else cleanStack rooted tl rest
    else cleanStack rooted (c :: stack) rest

/-- Go `path/filepath.Clean` for Unix paths. -/
def pathClean (p : String) : String :=
  if p = "" then "."
  else
    let rooted : Bool := match p.data with | '/' :: _ => true | _ => false
    let comps := cleanStack rooted [] (splitOnChar '/' p.data)
    let body := joinSep '/' comps
    if rooted then ⟨'/' :: body⟩
    else if body = [] then "." else ⟨body⟩

/-- Go `path/filepath.Join` on two elements: empty elements are skipped,
the rest are joined with `/` and the result is Cleaned; all-empty input
gives `""`. -/
def filepathJoin (a b : String) : String :=
  if a = "" ∧ b = "" then ""
  else if a = "" then pathClean b
  else if b = "" then pathClean a
  else pathClean ⟨a.data ++ '/' :: b.data⟩

/-- Go `path/filepath.Ext`: the suffix of the final slash-separated
element starting at its final dot; `""` when that element has no dot. -/
def filepathExt (p : String) : String :=
  let r := p.data.reverse
  let sfx := r.takeWhile fun c => !(c == '/') && !(c == '.')
  match r.drop sfx.length with
  | '.' :: _ => ⟨'.' :: sfx.reverse⟩
  | _ => ""

/-- Go `path/filepath.Base`: strip trailing separators, then keep the last
element; `"."` for the empty path, `"/"` for all-separator paths. -/
def filepathBase (p : String) : String :=
  if p = "" then "."
  else
    let t := (p.data.reverse.dropWhile (· == '/')).reverse
    if t = [] then "/"
    else ⟨(t.reverse.takeWhile (· != '/')).reverse⟩

/-- Go `path/filepath.Dir`: everything up to and including the final
separator, Cleaned (`pathClean "" = "."`). -/
def filepathDir (p : String) : String :=
  pathClean ⟨(p.data.reverse.dropWhile (· != '/')).reverse⟩


/-! ## Shared data model -/

/-- The three outcomes of `os.Stat` the code distinguishes:
`err == nil`, `os.IsNotExist(err)`, or some other error. -/
inductive StatRes where
  | found
  | missing
  | errored
deriving DecidableEq

/-- Oracle for the filesystem and executable lookup effects used by
`loadConfig`: `os.Stat`, whether `os.MkdirAll` would succeed, and
`exec.LookPath`. -/
structure FSOracle where
  stat : String → StatRes
  mkdirOk : String → Bool
  lookPathOk : String → Bool

/-- Predicate `isAncestorOf a p`: `a` is a strict path ancestor of `p`
(`p` starts with `a ++ "/"`). -/
def isAncestorOf (a p : String) : Bool :=
  List.isPrefixOf (a.data ++ ['/']) p.data

/-- Effect of a successful `os.MkdirAll target 0755`: the target and every
ancestor directory exist afterwards (recursive creation). -/
def FSOracle.mkdirAll (fs : FSOracle) (target : String) : FSOracle :=
  { fs with
    stat := fun q => if q == target || isAncestorOf q target then .found else fs.stat q }

/-- One callback invocation of a `filepath.WalkDir` traversal: the visited
path, whether the entry is a directory, and whether the walk passed a
non-nil per-entry error to the callback. -/
structure WalkEvent where
  path : String
  isDir : Bool
  errored : Bool
deriving DecidableEq

/-- One entry of an `os.ReadDir` listing. -/
structure DirEntry where
  name : String
  isDir : Bool
deriving DecidableEq

/-- A subprocess invocation: program path and argument list. -/
structure Cmd where
  prog : String
  args : List String
deriving DecidableEq

/-- Map `videoExtensions` (both variants, lines 20-28 / 196-204): the set of
recognised video file extensions. -/
def videoExtensions (ext : String) : Bool :=
  [".mp4", ".avi", ".mkv", ".mov", ".wmv", ".flv", ".webm"].contains ext

/-- Errors of `loadConfig` after a successful read and JSON parse
(read/parse failures happen before the code modelled here runs). -/
inductive ConfigError where
  | missingBasePath
  | missingOutputPath
  | basePathNotFound
  | outputPathCreate
  | outputPathStat
  | ffmpegNotFound
  | ffmpegStat
deriving DecidableEq

/-- The trailing `exec.LookPath` validation shared by both variants'
`loadConfig` (lines 67-74 / 230-237): accepted when `LookPath` succeeds,
or when it fails but the path exists as a file (warning only); otherwise
an error. Returns `none` on acceptance. -/
def checkFfmpegPath (fs : FSOracle) (ffmpegPath : String) : Option ConfigError :=
  if fs.lookPathOk ffmpegPath then none
  else
    match fs.stat ffmpegPath with
    | .missing => some .ffmpegNotFound
    | .errored => some .ffmpegStat
    | .found => none

/-- The `WalkDir` callback logic shared verbatim by the generic variant's
`findVideoFiles` (lines 83-96) and the filtered variant's
`findVideosInDir` (lines 252-265): per-entry errors are logged and
skipped, and every non-directory entry whose lowercased extension is a
video extension is collected, in walk order. -/
def collectVideoFiles (walk : List WalkEvent) : List String :=
  (walk.filter fun ev =>
      !ev.errored && !ev.isDir && videoExtensions (strToLower (filepathExt ev.path))).map
    fun ev => ev.path

/-- Output name `fmt.Sprintf("%s_av1.mkv", strings.TrimSuffix(baseName, ext))` with
`baseName := filepath.Base(inputPath)`, `ext := filepath.Ext(baseName)`
(generic lines 107-109, filtered lines 363-365). -/
def outputFileName (inputPath : String) : String :=
  let baseName := filepathBase inputPath
  let ext := filepathExt baseName
  trimSuffix baseName ext ++ "_av1.mkv"

/-- The encoder invocation both variants build (generic lines 114-120,
filtered lines 370-376):
`<ffmpeg> -i <input> -c:v av1_qsv -c:a copy -y <output>`. -/
def encodeCmd (inputPath fullOutputPath ffmpegPath : String) : Cmd :=
  ⟨ffmpegPath, ["-i", inputPath, "-c:v", "av1_qsv", "-c:a", "copy", "-y", fullOutputPath]⟩

/-! ## Generic variant (first `convert_video_to_av1.go`) -/

namespace Generic

/-- Struct `Config` (lines 14-18). -/
structure Config where
  BasePath : String
  OutputPath : String
  FfmpegPath : String
deriving DecidableEq

/-- Function `loadConfig` (lines 30-77) after a successful read and JSON parse,
with the filesystem as an oracle. Returns the validation result together
with the filesystem after the call, so that directory creation (or its
absence) is observable. -/
def loadConfig (cfg0 : Config) (fs : FSOracle) : Except ConfigError Config × FSOracle :=
  if cfg0.BasePath = "" then (.error .missingBasePath, fs)
  else if cfg0.OutputPath = "" then (.error .missingOutputPath, fs)
  else
    let cfg := if cfg0.FfmpegPath = "" then { cfg0 with FfmpegPath := "ffmpeg" } else cfg0
    if fs.stat cfg.BasePath = .missing then (.error .basePathNotFound, fs)
    else
      match fs.stat cfg.OutputPath with
      | .missing =>
        if fs.mkdirOk cfg.OutputPath then
          let fs1 := fs.mkdirAll cfg.OutputPath
          (match checkFfmpegPath fs1 cfg.FfmpegPath with
           | some e => .error e
           | none => .ok cfg, fs1)
        else (.error .outputPathCreate, fs)
      | .errored => (.error .outputPathStat, fs)
      | .found =>
        (match checkFfmpegPath fs cfg.FfmpegPath with
         | some e => .error e
         | none => .ok cfg, fs)

/-- Function `findVideoFiles` (lines 79-104): the callback filter over the walk of
`BasePath`. -/
def findVideoFiles (walk : List WalkEvent) : List String :=
  collectVideoFiles walk

/-- Function `convertVideoToAV1` (lines 106-139): builds the output path inside the
configured output directory and spawns the encoder; the spawned command
is returned as the trace. -/
def convertVideoToAV1 (encExit : Cmd → Nat) (inputPath outputPath ffmpegPath : String) :
    Except String Unit × List Cmd :=
  let fullOutputPath := filepathJoin outputPath (outputFileName inputPath)
  let cmd := encodeCmd inputPath fullOutputPath ffmpegPath
  if encExit cmd = 0 then (.ok (), [cmd]) else (.error "FFmpeg error", [cmd])

/-- The run counters of the generic `main` (lines 161-162). -/
structure Counts where
  successCount : Nat
  errorCount : Nat
deriving DecidableEq

/-- The per-file loop of the generic `main` (lines 163-171), returning the
final counters and the trace of spawned encoder commands. -/
def runLoop (encExit : Cmd → Nat) (outputPath ffmpegPath : String) :
    List String → Counts × List Cmd
  | [] => (⟨0, 0⟩, [])
  | f :: fs =>
    let (res, cs) := convertVideoToAV1 encExit f outputPath ffmpegPath
    let (cnt, tr) := runLoop encExit outputPath ffmpegPath fs
    (match res with
     | .ok _ => { cnt with successCount := cnt.successCount + 1 }
     | .error _ => { cnt with errorCount := cnt.errorCount + 1 }, cs ++ tr)

/-- Function `main` (lines 141-175): the process exit code (`log.Fatalf` exits
with 1), final counters and encoder trace. A walk-level failure of
`findVideoFiles` is the `.error` case of `walkRes`. The empty-file-list
early return (lines 155-159) yields the same observable triple as running
the loop on `[]`. -/
def mainRun (cfg0 : Config) (fs : FSOracle) (walkRes : Except Unit (List WalkEvent))
    (encExit : Cmd → Nat) : Nat × Counts × List Cmd :=
  match (loadConfig cfg0 fs).1 with
  | .error _ => (1, ⟨0, 0⟩, [])
  | .ok cfg =>
    match walkRes with
    | .error _ => (1, ⟨0, 0⟩, [])
    | .ok walk =>
      let files := findVideoFiles walk
      let (cnt, tr) := runLoop encExit cfg.OutputPath cfg.FfmpegPath files
      (0, cnt, tr)

end Generic

/-! ## Filtered variant (second `convert_video_to_av1.go`) -/

namespace Filtered

/-- Struct `Config` (lines 191-194): no `OutputPath` in this variant. -/
structure Config where
  BasePath : String
  FfmpegPath : String
deriving DecidableEq

/-- Function `loadConfig` (lines 206-240) after a successful read and JSON parse.
This variant creates no directories, so no filesystem is returned. -/
def loadConfig (cfg0 : Config) (fs : FSOracle) : Except ConfigError Config :=
  if cfg0.BasePath = "" then .error .missingBasePath
  else
    let cfg := if cfg0.FfmpegPath = "" then { cfg0 with FfmpegPath := "ffmpeg" } else cfg0
    if fs.stat cfg.BasePath = .missing then .error .basePathNotFound
    else
      match checkFfmpegPath fs cfg.FfmpegPath with
      | some e => .error e
      | none => .ok cfg

/-- Function `isDateFormatDir` (lines 243-246), modelling the Go regexp match
`^\d{8}$` (RE2 `\d` is the ASCII digit class `0-9`): exactly eight ASCII
digits. -/
def isDateFormatDir (dirName : String) : Bool :=
  dirName.length == 8 && dirName.data.all Char.isDigit

/-- Function `findVideosInDir` (lines 249-272): identical callback logic to the
generic variant's walk. -/
def findVideosInDir (walk : List WalkEvent) : List String :=
  collectVideoFiles walk

/-- The entries of the `os.ReadDir` listing that qualify as search roots
(lines 286-292): directories whose name is in date format. -/
def searchRootEntries (entries : List DirEntry) : List DirEntry :=
  entries.filter fun e => e.isDir && isDateFormatDir e.name

/-- The search-root paths `filepath.Join(basePath, entry.Name())`
accumulated by the loop at lines 286-292. -/
def dateFormatDirs (basePath : String) (entries : List DirEntry) : List String :=
  (searchRootEntries entries).map fun e => filepathJoin basePath e.name

/-- Function `findVideoFiles` (lines 274-312): `os.ReadDir` failure is fatal; with
zero date-format directories the function returns `nil, nil` (an empty
result, no error); otherwise each qualifying directory is walked
(`walkOf` gives each directory's walk, `.error` when `findVideosInDir`
fails for it, which is logged and skipped with `continue`). -/
def findVideoFiles (basePath : String) (readDirRes : Except Unit (List DirEntry))
    (walkOf : String → Except Unit (List WalkEvent)) : Except Unit (List String) :=
  match readDirRes with
  | .error e => .error e
  | .ok entries =>
    let dirs := dateFormatDirs basePath entries
    if dirs.isEmpty then .ok []
    else
      .ok (dirs.foldl
        (fun acc d =>
          match walkOf d with
          | .error _ => acc
          | .ok walk => acc ++ findVideosInDir walk)
        [])

/-- The skip test that both the outer loop (line 423) and the conversion
driver (lines 354-360) apply to the probe result of a file: the probe
succeeded (`checkErr == nil`) and the codec name contains `"av1"`
case-insensitively. `probe` abstracts `getVideoCodec` (lines 315-350),
whose body is `ffprobe` subprocess plumbing: `some codec` is a successful
probe returning the whitespace-trimmed codec name, `none` a probe
failure. -/
def probeSaysAV1 (probe : String → Option String) (file : String) : Bool :=
  match probe file with
  | some codec => strContains (strToLower codec) "av1"
  | none => false

/-- Function `convertVideoToAV1` (lines 352-395): re-probes the codec, returns
`nil` without spawning anything when the file is already AV1, warns and
proceeds on probe failure, and otherwise spawns the encoder with the
output placed in the input file's own directory. -/
def convertVideoToAV1 (probe : String → Option String) (encExit : Cmd → Nat)
    (inputPath ffmpegPath : String) : Except String Unit × List Cmd :=
  if probeSaysAV1 probe inputPath then (.ok (), [])
  else
    let dir := filepathDir inputPath
    let fullOutputPath := filepathJoin dir (outputFileName inputPath)
    let cmd := encodeCmd inputPath fullOutputPath ffmpegPath
    if encExit cmd = 0 then (.ok (), [cmd]) else (.error "FFmpeg error", [cmd])

/-- How one file is accounted in the filtered `main` loop. -/
inductive Outcome where
  | success
  | failure
  | skipped
deriving DecidableEq

/-- The run counters of the filtered `main` (lines 417-419). -/
structure Counts where
  successCount : Nat
  errorCount : Nat
  skippedCount : Nat
deriving DecidableEq

/-- Counter increment for one file's outcome. -/
def Counts.bump (c : Counts) : Outcome → Counts
  | .success => { c with successCount := c.successCount + 1 }
  | .failure => { c with errorCount := c.errorCount + 1 }
  | .skipped => { c with skippedCount := c.skippedCount + 1 }

/-- One iteration of the filtered `main` loop (lines 420-436): the outer
codec check skips already-AV1 files; otherwise `convertVideoToAV1` runs
and its result is counted as success or failure. -/
def processFile (probe : String → Option String) (encExit : Cmd → Nat)
    (ffmpegPath file : String) : Outcome × List Cmd :=
  if probeSaysAV1 probe file then (.skipped, [])
  else
    match convertVideoToAV1 probe encExit file ffmpegPath with
    | (.ok _, cs) => (.success, cs)
    | (.error _, cs) => (.failure, cs)

/-- The per-file loop of the filtered `main` (lines 420-436). -/
def runLoop (probe : String → Option String) (encExit : Cmd → Nat) (ffmpegPath : String) :
    List String → Counts × List Cmd
  | [] => (⟨0, 0, 0⟩, [])
  | f :: fs =>
    let (o, cs) := processFile probe encExit ffmpegPath f
    let (cnt, tr) := runLoop probe encExit ffmpegPath fs
    (cnt.bump o, cs ++ tr)

/-- Function `main` (lines 397-440): exit code, final counters and encoder trace.
The empty-file-list early return (lines 411-415) yields the same
observable triple as running the loop on `[]`. -/
def mainRun (cfg0 : Config) (fs : FSOracle) (readDirRes : Except Unit (List DirEntry))
    (walkOf : String → Except Unit (List WalkEvent)) (probe : String → Option String)
    (encExit : Cmd → Nat) : Nat × Counts × List Cmd :=
  match loadConfig cfg0 fs with
  | .error _ => (1, ⟨0, 0, 0⟩, [])
  | .ok cfg =>
    match findVideoFiles cfg.BasePath readDirRes walkOf with
    | .error _ => (1, ⟨0, 0, 0⟩, [])
    | .ok files =>
      let (cnt, tr) := runLoop probe encExit cfg.FfmpegPath files
      (0, cnt, tr)

end Filtered

/-! ## Derived abbreviations and concrete fixtures -/

/-- The exact encoder command the generic `convertVideoToAV1` spawns for
`file` with output directory `outputPath`. -/
def Generic.encodeCmdFor (outputPath ffmpegPath file : String) : Cmd :=
  encodeCmd file (filepathJoin outputPath (outputFileName file)) ffmpegPath

/-- The exact encoder command the filtered `convertVideoToAV1` spawns for
`file` (output next to the input). -/
def Filtered.encodeCmdFor (ffmpegPath file : String) : Cmd :=
  encodeCmd file (filepathJoin (filepathDir file) (outputFileName file)) ffmpegPath

/-- A probe oracle whose probe always fails. -/
def probeNone : String → Option String := fun _ => none

/-- A probe oracle that reports codec `"av1"` for every file. -/
def probeAV1 : String → Option String := fun _ => some "av1"

/-- A probe oracle that reports codec `"h264"` for every file. -/
def probeH264 : String → Option String := fun _ => some "h264"

/-- An encoder oracle that always exits 0. -/
def encZero : Cmd → Nat := fun _ => 0

/-- An encoder oracle that always exits 1. -/
def encOne : Cmd → Nat := fun _ => 1

/-- A filesystem where every path exists. -/
def fsAllFound : FSOracle := ⟨fun _ => .found, fun _ => true, fun _ => true⟩

/-- A filesystem where exactly `/b/out` is missing and creation works. -/
def fsOutMissing : FSOracle :=
  ⟨fun p => if p == "/b/out" then .missing else .found, fun _ => true, fun _ => true⟩

/-- A generic-variant configuration whose output directory is `/b/out`. -/
def cfgOut : Generic.Config := ⟨"/b", "/b/out", "ffmpeg"⟩

-- Sanity checks of the path model against documented Go behaviour.
example : pathClean "a//b/./c/.." = "a/b" := by decide
example : pathClean "/../a/" = "/a" := by decide
example : filepathJoin "out" "a_av1.mkv" = "out/a_av1.mkv" := by decide
example : filepathExt "d/a.tar.gz" = ".gz" := by decide
example : filepathExt "d/noext" = "" := by decide
example : filepathBase "d/e/a.mp4" = "a.mp4" := by decide
example : filepathDir "d/e/a.mp4" = "d/e" := by decide
example : filepathDir "a.mp4" = "." := by decide
example : trimSuffix "a.mp4" ".mp4" = "a" := by decide
example : strToLower ".MKV" = ".mkv" := by decide
example : strContains "libaom-av1" "av1" = true := by decide
example : strContains "h264" "av1" = false := by decide

/-! ## Helper lemmas -/

theorem char_isDigit_iff (c : Char) : c.isDigit = true ↔ '0' ≤ c ∧ c ≤ '9' := by
  simp [Char.isDigit, Char.le_def]

theorem Generic.convert_eq (enc : Cmd → Nat) (i o ff : String) :
    Generic.convertVideoToAV1 enc i o ff
      = ((if enc (Generic.encodeCmdFor o ff i) = 0 then .ok () else .error "FFmpeg error"),
         [Generic.encodeCmdFor o ff i]) := by
  unfold Generic.convertVideoToAV1 Generic.encodeCmdFor
  split <;> simp_all

theorem Filtered.processFile_eq (probe : String → Option String) (enc : Cmd → Nat)
    (ff f : String) :
    Filtered.processFile probe enc ff f
      = if Filtered.probeSaysAV1 probe f then (.skipped, ([] : List Cmd))
        else if enc (Filtered.encodeCmdFor ff f) = 0 then (.success, [Filtered.encodeCmdFor ff f])
        else (.failure, [Filtered.encodeCmdFor ff f]) := by
  unfold Filtered.processFile Filtered.convertVideoToAV1 Filtered.encodeCmdFor
  by_cases hs : Filtered.probeSaysAV1 probe f
  · simp [hs]
  · by_cases he : enc (encodeCmd f (filepathJoin (filepathDir f) (outputFileName f)) ff) = 0 <;>
      simp [hs, he]

theorem Generic.runLoopG_append (enc : Cmd → Nat) (o ff : String) (xs ys : List String) :
    (Generic.runLoop enc o ff (xs ++ ys)).1.successCount
        = (Generic.runLoop enc o ff xs).1.successCount
          + (Generic.runLoop enc o ff ys).1.successCount
    ∧ (Generic.runLoop enc o ff (xs ++ ys)).1.errorCount
        = (Generic.runLoop enc o ff xs).1.errorCount
          + (Generic.runLoop enc o ff ys).1.errorCount
    ∧ (Generic.runLoop enc o ff (xs ++ ys)).2
        = (Generic.runLoop enc o ff xs).2 ++ (Generic.runLoop enc o ff ys).2 := by
  induction xs with
  | nil => simp [Generic.runLoop]
  | cons x xs ih =>
    obtain ⟨ih1, ih2, ih3⟩ := ih
    by_cases h : enc (Generic.encodeCmdFor o ff x) = 0 <;>
      simp [Generic.runLoop, Generic.convert_eq, h, ih1, ih2, ih3] <;> omega

theorem Filtered.runLoop_cons (probe : String → Option String) (enc : Cmd → Nat)
    (ff f : String) (fs : List String) :
    Filtered.runLoop probe enc ff (f :: fs)
      = ((Filtered.runLoop probe enc ff fs).1.bump (Filtered.processFile probe enc ff f).1,
         (Filtered.processFile probe enc ff f).2 ++ (Filtered.runLoop probe enc ff fs).2) := by
  simp [Filtered.runLoop]

theorem Filtered.runLoopF_append (probe : String → Option String) (enc : Cmd → Nat)
    (ff : String) (xs ys : List String) :
    (Filtered.runLoop probe enc ff (xs ++ ys)).1.successCount
        = (Filtered.runLoop probe enc ff xs).1.successCount
          + (Filtered.runLoop probe enc ff ys).1.successCount
    ∧ (Filtered.runLoop probe enc ff (xs ++ ys)).1.errorCount
        = (Filtered.runLoop probe enc ff xs).1.errorCount
          + (Filtered.runLoop probe enc ff ys).1.errorCount
    ∧ (Filtered.runLoop probe enc ff (xs ++ ys)).1.skippedCount
        = (Filtered.runLoop probe enc ff xs).1.skippedCount
          + (Filtered.runLoop probe enc ff ys).1.skippedCount
    ∧ (Filtered.runLoop probe enc ff (xs ++ ys)).2
        = (Filtered.runLoop probe enc ff xs).2 ++ (Filtered.runLoop probe enc ff ys).2 := by
  induction xs with
  | nil => simp [Filtered.runLoop]
  | cons x xs ih =>
    obtain ⟨ih1, ih2, ih3, ih4⟩ := ih
    rcases ho : (Filtered.processFile probe enc ff x).1 with _ | _ | _ <;>
      simp [Filtered.runLoop_cons, List.cons_append, ho, Filtered.Counts.bump,
        ih1, ih2, ih3, ih4] <;> omega

theorem Filtered.isDateFormatDir_iff (s : String) :
    Filtered.isDateFormatDir s = true ↔
      s.data.length = 8 ∧ ∀ c ∈ s.data, '0' ≤ c ∧ c ≤ '9' := by
  unfold Filtered.isDateFormatDir
  rw [Bool.and_eq_true, beq_iff_eq, List.all_eq_true]
  constructor
  · rintro ⟨h1, h2⟩
    exact ⟨h1, fun c hc => (char_isDigit_iff c).1 (h2 c hc)⟩
  · rintro ⟨h1, h2⟩
    exact ⟨h1, fun c hc => (char_isDigit_iff c).2 (h2 c hc)⟩

/-! ## Claims -/

/-- C1: in the filtered variant, a file whose codec probe succeeds with a
codec name containing the case-insensitive substring `"av1"` is skipped:
the loop iteration yields outcome `skipped` with an empty encoder trace,
the conversion driver's own redundant check likewise returns success
without spawning anything, and on the whole loop the file adds one to the
skipped counter (not the success counter) and nothing to the encoder
trace. -/
theorem spec_C1_already_av1_skipped (probe : String → Option String) (enc : Cmd → Nat)
    (ff f codec : String) (hp : probe f = some codec)
    (hav1 : strContains (strToLower codec) "av1" = true) :
    Filtered.processFile probe enc ff f = (.skipped, [])
    ∧ Filtered.convertVideoToAV1 probe enc f ff = (.ok (), [])
    ∧ ∀ rest : List String,
        (Filtered.runLoop probe enc ff (f :: rest)).1
          = (Filtered.runLoop probe enc ff rest).1.bump .skipped
        ∧ (Filtered.runLoop probe enc ff (f :: rest)).2
          = (Filtered.runLoop probe enc ff rest).2 := by
  have hs : Filtered.probeSaysAV1 probe f = true := by
    simp [Filtered.probeSaysAV1, hp, hav1]
  refine ⟨?_, ?_, ?_⟩
  · simp [Filtered.processFile, hs]
  · simp [Filtered.convertVideoToAV1, hs]
  · intro rest
    constructor <;> simp [Filtered.runLoop_cons, Filtered.processFile, hs]

theorem spec_C1_witness :
    Filtered.processFile probeAV1 encZero "ffmpeg" "/m/20240101/x.mp4" = (.skipped, []) :=
  (spec_C1_already_av1_skipped probeAV1 encZero "ffmpeg" "/m/20240101/x.mp4" "av1" rfl
    (by decide)).1

/-- C2: the generic scanner returns exactly the successfully visited
non-directory entries whose extension, lowercased, is one of
`.mp4 .avi .mkv .mov .wmv .flv .webm` (so `.MKV` matches and `.txt` never
does), and never a directory's path. -/
theorem spec_C2_scanner_membership (walk : List WalkEvent) (p : String) :
    p ∈ Generic.findVideoFiles walk ↔
      ∃ ev : WalkEvent, ev ∈ walk ∧ ev.errored = false ∧ ev.isDir = false ∧ ev.path = p
        ∧ videoExtensions (strToLower (filepathExt p)) = true := by
  constructor
  · intro hp
    unfold Generic.findVideoFiles collectVideoFiles at hp
    obtain ⟨ev, hev, rfl⟩ := List.mem_map.1 hp
    obtain ⟨hmem, hcond⟩ := List.mem_filter.1 hev
    have hcond' : (ev.errored = false ∧ ev.isDir = false)
        ∧ videoExtensions (strToLower (filepathExt ev.path)) = true := by
      simpa only [Bool.and_eq_true, Bool.not_eq_true'] using hcond
    exact ⟨ev, hmem, hcond'.1.1, hcond'.1.2, rfl, hcond'.2⟩
  · rintro ⟨ev, hmem, herr, hdir, rfl, hext⟩
    unfold Generic.findVideoFiles collectVideoFiles
    refine List.mem_map.2 ⟨ev, List.mem_filter.2 ⟨hmem, ?_⟩, rfl⟩
    simp only [Bool.and_eq_true, Bool.not_eq_true']
    exact ⟨⟨herr, hdir⟩, hext⟩

/-- C3: in the filtered variant an immediate child of the root is used as
a search root iff it is a directory whose name is exactly 8 ASCII digits
(no calendar validation), and when zero children qualify the scan returns
an empty result rather than an error. -/
theorem spec_C3_search_roots (entries : List DirEntry) :
    (∀ e : DirEntry, e ∈ Filtered.searchRootEntries entries ↔
       e ∈ entries ∧ e.isDir = true ∧ e.name.data.length = 8
         ∧ ∀ c ∈ e.name.data, '0' ≤ c ∧ c ≤ '9')
    ∧ (Filtered.searchRootEntries entries = [] →
        ∀ (base : String) (walkOf : String → Except Unit (List WalkEvent)),
          Filtered.findVideoFiles base (.ok entries) walkOf = .ok []) := by
  constructor
  · intro e
    unfold Filtered.searchRootEntries
    rw [List.mem_filter, Bool.and_eq_true]
    constructor
    · rintro ⟨hmem, hdir, hdate⟩
      obtain ⟨hlen, hdig⟩ := (Filtered.isDateFormatDir_iff _).1 hdate
      exact ⟨hmem, hdir, hlen, hdig⟩
    · rintro ⟨hmem, hdir, hlen, hdig⟩
      exact ⟨hmem, hdir, (Filtered.isDateFormatDir_iff _).2 ⟨hlen, hdig⟩⟩
  · intro h base walkOf
    simp [Filtered.findVideoFiles, Filtered.dateFormatDirs, h]

theorem spec_C3_witness :
    Filtered.findVideoFiles "/m" (.ok [⟨"2024-01-01", true⟩, ⟨"20240101file.txt", false⟩])
      (fun _ => .ok []) = .ok [] :=
  (spec_C3_search_roots [⟨"2024-01-01", true⟩, ⟨"20240101file.txt", false⟩]).2 (by decide)
    "/m" (fun _ => .ok [])

/-- Trace of the filtered conversion driver: nothing when the inner codec
check skips, exactly the encoder command otherwise. -/
theorem Filtered.convert_trace (probe : String → Option String) (enc : Cmd → Nat)
    (i ff : String) :
    (Filtered.convertVideoToAV1 probe enc i ff).2
      = if Filtered.probeSaysAV1 probe i then [] else [Filtered.encodeCmdFor ff i] := by
  unfold Filtered.convertVideoToAV1 Filtered.encodeCmdFor
  by_cases hs : Filtered.probeSaysAV1 probe i
  · simp [hs]
  · simp only [hs, Bool.false_eq_true, if_false]
    split <;> rfl

/-- C4: a non-zero encoder exit for one file increments the failure
counter by exactly one for that file, the loop continues into the
remaining files (their commands still appear in the trace and their
counts still accumulate), and a run that got past startup exits with
process exit code 0 — in both variants. -/
theorem spec_C4_encoder_failure_counted_once (enc : Cmd → Nat) (o ff : String)
    (pre post : List String) (f : String)
    (hfail : enc (Generic.encodeCmdFor o ff f) ≠ 0) :
    ((Generic.runLoop enc o ff (pre ++ f :: post)).1.errorCount
        = (Generic.runLoop enc o ff pre).1.errorCount
          + (Generic.runLoop enc o ff post).1.errorCount + 1
      ∧ (Generic.runLoop enc o ff (pre ++ f :: post)).1.successCount
        = (Generic.runLoop enc o ff pre).1.successCount
          + (Generic.runLoop enc o ff post).1.successCount
      ∧ (Generic.runLoop enc o ff (pre ++ f :: post)).2
        = (Generic.runLoop enc o ff pre).2 ++ Generic.encodeCmdFor o ff f
            :: (Generic.runLoop enc o ff post).2)
    ∧ (∀ (cfg0 : Generic.Config) (fs : FSOracle) (walk : List WalkEvent)
          (cfg : Generic.Config),
        (Generic.loadConfig cfg0 fs).1 = .ok cfg →
        (Generic.mainRun cfg0 fs (.ok walk) enc).1 = 0)
    ∧ (∀ probe : String → Option String,
        Filtered.probeSaysAV1 probe f = false →
        enc (Filtered.encodeCmdFor ff f) ≠ 0 →
        (Filtered.runLoop probe enc ff (pre ++ f :: post)).1.errorCount
          = (Filtered.runLoop probe enc ff pre).1.errorCount
            + (Filtered.runLoop probe enc ff post).1.errorCount + 1
        ∧ (Filtered.runLoop probe enc ff (pre ++ f :: post)).2
          = (Filtered.runLoop probe enc ff pre).2 ++ Filtered.encodeCmdFor ff f
              :: (Filtered.runLoop probe enc ff post).2)
    ∧ (∀ (cfg0 : Filtered.Config) (fs : FSOracle)
          (rdr : Except Unit (List DirEntry))
          (walkOf : String → Except Unit (List WalkEvent))
          (probe : String → Option String) (cfg : Filtered.Config)
          (files : List String),
        Filtered.loadConfig cfg0 fs = .ok cfg →
        Filtered.findVideoFiles cfg.BasePath rdr walkOf = .ok files →
        (Filtered.mainRun cfg0 fs rdr walkOf probe enc).1 = 0) := by
  refine ⟨?_, ?_, ?_, ?_⟩
  · obtain ⟨h1, h2, h3⟩ := Generic.runLoopG_append enc o ff pre (f :: post)
    have hs : (Generic.runLoop enc o ff (f :: post)).1.successCount
        = (Generic.runLoop enc o ff post).1.successCount := by
      simp [Generic.runLoop, Generic.convert_eq, hfail]
    have he : (Generic.runLoop enc o ff (f :: post)).1.errorCount
        = (Generic.runLoop enc o ff post).1.errorCount + 1 := by
      simp [Generic.runLoop, Generic.convert_eq, hfail]
    have ht : (Generic.runLoop enc o ff (f :: post)).2
        = Generic.encodeCmdFor o ff f :: (Generic.runLoop enc o ff post).2 := by
      simp [Generic.runLoop, Generic.convert_eq, hfail]
    refine ⟨?_, ?_, ?_⟩
    · rw [h2, he]; omega
    · rw [h1, hs]
    · rw [h3, ht]
  · intro cfg0 fs walk cfg hok
    simp [Generic.mainRun, hok]
  · intro probe hskip hfail2
    obtain ⟨h1, h2, h3, h4⟩ := Filtered.runLoopF_append probe enc ff pre (f :: post)
    have hp : Filtered.processFile probe enc ff f
        = (.failure, [Filtered.encodeCmdFor ff f]) := by
      simp [Filtered.processFile_eq, hskip, hfail2]
    have he : (Filtered.runLoop probe enc ff (f :: post)).1.errorCount
        = (Filtered.runLoop probe enc ff post).1.errorCount + 1 := by
      simp [Filtered.runLoop_cons, hp, Filtered.Counts.bump]
    have ht : (Filtered.runLoop probe enc ff (f :: post)).2
        = Filtered.encodeCmdFor ff f :: (Filtered.runLoop probe enc ff post).2 := by
      simp [Filtered.runLoop_cons, hp]
    refine ⟨?_, ?_⟩
    · rw [h2, he]; omega
    · rw [h4, ht]
  · intro cfg0 fs rdr walkOf probe cfg files hok hfind
    simp [Filtered.mainRun, hok, hfind]

theorem spec_C4_witness :
    (Generic.runLoop encOne "out" "ffmpeg" (([] : List String) ++ "a.mp4" :: [])).1.errorCount
      = (Generic.runLoop encOne "out" "ffmpeg" []).1.errorCount
        + (Generic.runLoop encOne "out" "ffmpeg" []).1.errorCount + 1 :=
  ((spec_C4_encoder_failure_counted_once encOne "out" "ffmpeg" [] [] "a.mp4"
    (by decide)).1).1

/-- C5: an empty `BasePath` after parsing makes loading fail with the
missing-field error in both variants, and the filesystem is returned
untouched by the generic variant (no directory, in particular no
`OutputPath` directory, is created). -/
theorem spec_C5_missing_basepath :
    (∀ (cfg : Generic.Config) (fs : FSOracle), cfg.BasePath = "" →
        Generic.loadConfig cfg fs = (.error .missingBasePath, fs))
    ∧ (∀ (cfg : Filtered.Config) (fs : FSOracle), cfg.BasePath = "" →
        Filtered.loadConfig cfg fs = .error .missingBasePath) := by
  constructor
  · intro cfg fs h
    simp [Generic.loadConfig, h]
  · intro cfg fs h
    simp [Filtered.loadConfig, h]

theorem spec_C5_witness :
    Generic.loadConfig ⟨"", "/b/out", "ffmpeg"⟩ fsAllFound
      = (.error .missingBasePath, fsAllFound) :=
  spec_C5_missing_basepath.1 ⟨"", "/b/out", "ffmpeg"⟩ fsAllFound rfl

/-- C6: in the generic variant, when the otherwise-valid configuration's
`OutputPath` does not exist, a successful `MkdirAll` leaves the output
directory and all its ancestors existing in the returned filesystem
(recursive creation), and a failing `MkdirAll` makes loading fail with
the directory-create error. -/
theorem spec_C6_outputpath_created (cfg : Generic.Config) (fs : FSOracle)
    (hbp : cfg.BasePath ≠ "") (hop : cfg.OutputPath ≠ "")
    (hbase : fs.stat cfg.BasePath ≠ .missing)
    (hmiss : fs.stat cfg.OutputPath = .missing) :
    (fs.mkdirOk cfg.OutputPath = true →
        (Generic.loadConfig cfg fs).2.stat cfg.OutputPath = .found
        ∧ ∀ a : String, isAncestorOf a cfg.OutputPath = true →
            (Generic.loadConfig cfg fs).2.stat a = .found)
    ∧ (fs.mkdirOk cfg.OutputPath = false →
        Generic.loadConfig cfg fs = (.error .outputPathCreate, fs)) := by
  constructor
  · intro hmk
    constructor
    · by_cases hff : cfg.FfmpegPath = "" <;>
        simp [Generic.loadConfig, hbp, hop, hff, hbase, hmiss, hmk, FSOracle.mkdirAll]
    · intro a ha
      by_cases hff : cfg.FfmpegPath = "" <;>
        simp [Generic.loadConfig, hbp, hop, hff, hbase, hmiss, hmk, FSOracle.mkdirAll, ha]
  · intro hmk
    by_cases hff : cfg.FfmpegPath = "" <;>
      simp [Generic.loadConfig, hbp, hop, hff, hbase, hmiss, hmk]

theorem spec_C6_witness :
    (Generic.loadConfig cfgOut fsOutMissing).2.stat "/b/out" = .found :=
  ((spec_C6_outputpath_created cfgOut fsOutMissing (by decide) (by decide) (by decide)
    (by decide)).1 rfl).1

/-- C7: in the filtered variant a codec-probe failure is fail-open: the
loop iteration for such a file spawns the encoder and ends in success or
failure according to the encoder's exit status, and is never counted as
skipped. -/
theorem spec_C7_probe_failure_fail_open (probe : String → Option String) (enc : Cmd → Nat)
    (ff f : String) (hp : probe f = none) :
    Filtered.processFile probe enc ff f
      = ((if enc (Filtered.encodeCmdFor ff f) = 0 then .success else .failure),
         [Filtered.encodeCmdFor ff f])
    ∧ (Filtered.processFile probe enc ff f).1 ≠ .skipped := by
  have hs : Filtered.probeSaysAV1 probe f = false := by
    simp [Filtered.probeSaysAV1, hp]
  constructor
  · by_cases he : enc (Filtered.encodeCmdFor ff f) = 0 <;>
      simp [Filtered.processFile_eq, hs, he]
  · by_cases he : enc (Filtered.encodeCmdFor ff f) = 0 <;>
      simp [Filtered.processFile_eq, hs, he]

theorem spec_C7_witness :
    (Filtered.processFile probeNone encOne "ffmpeg" "/m/20240101/x.mp4").1 ≠ .skipped :=
  (spec_C7_probe_failure_fail_open probeNone encOne "ffmpeg" "/m/20240101/x.mp4" rfl).2

/-- C8: every spawned encoder command is exactly
`<ffmpeg> -i <input> -c:v av1_qsv -c:a copy -y <output>` with
`<output> = <baseNameWithoutExt>_av1.mkv` joined onto the configured
output directory (generic variant) or onto the input's own directory
(filtered variant). -/
theorem spec_C8_encoder_args (enc : Cmd → Nat) (i o ff : String) :
    (Generic.convertVideoToAV1 enc i o ff).2
      = [⟨ff, ["-i", i, "-c:v", "av1_qsv", "-c:a", "copy", "-y",
          filepathJoin o (trimSuffix (filepathBase i) (filepathExt (filepathBase i))
            ++ "_av1.mkv")]⟩]
    ∧ ∀ (probe : String → Option String) (c : Cmd),
        c ∈ (Filtered.convertVideoToAV1 probe enc i ff).2 →
        c = ⟨ff, ["-i", i, "-c:v", "av1_qsv", "-c:a", "copy", "-y",
          filepathJoin (filepathDir i)
            (trimSuffix (filepathBase i) (filepathExt (filepathBase i)) ++ "_av1.mkv")]⟩ := by
  constructor
  · rw [Generic.convert_eq]
    rfl
  · intro probe c hc
    rw [Filtered.convert_trace] at hc
    by_cases hs : Filtered.probeSaysAV1 probe i
    · simp [hs] at hc
    · simp only [hs, Bool.false_eq_true, if_false, List.mem_singleton] at hc
      subst hc
      rfl

theorem spec_C8_witness :
    (⟨"ffmpeg", ["-i", "/m/20240101/a.mp4", "-c:v", "av1_qsv", "-c:a", "copy", "-y",
        "/m/20240101/a_av1.mkv"]⟩ : Cmd)
      = ⟨"ffmpeg", ["-i", "/m/20240101/a.mp4", "-c:v", "av1_qsv", "-c:a", "copy", "-y",
          filepathJoin (filepathDir "/m/20240101/a.mp4")
            (trimSuffix (filepathBase "/m/20240101/a.mp4")
              (filepathExt (filepathBase "/m/20240101/a.mp4")) ++ "_av1.mkv")]⟩ :=
  (spec_C8_encoder_args encOne "/m/20240101/a.mp4" "out" "ffmpeg").2 probeH264
    ⟨"ffmpeg", ["-i", "/m/20240101/a.mp4", "-c:v", "av1_qsv", "-c:a", "copy", "-y",
        "/m/20240101/a_av1.mkv"]⟩ (by decide)

/-- C9: each discovered file is counted exactly once, so after the loop
the counters partition the file list: `success + error = total` in the
generic variant and `success + error + skipped = total` in the filtered
variant. -/
theorem spec_C9_counters_partition :
    (∀ (enc : Cmd → Nat) (o ff : String) (files : List String),
        (Generic.runLoop enc o ff files).1.successCount
          + (Generic.runLoop enc o ff files).1.errorCount = files.length)
    ∧ (∀ (probe : String → Option String) (enc : Cmd → Nat) (ff : String)
          (files : List String),
        (Filtered.runLoop probe enc ff files).1.successCount
          + (Filtered.runLoop probe enc ff files).1.errorCount
          + (Filtered.runLoop probe enc ff files).1.skippedCount = files.length) := by
  constructor
  · intro enc o ff files
    induction files with
    | nil => simp [Generic.runLoop]
    | cons f fs ih =>
      by_cases h : enc (Generic.encodeCmdFor o ff f) = 0 <;>
        simp [Generic.runLoop, Generic.convert_eq, h] <;> omega
  · intro probe enc ff files
    induction files with
    | nil => simp [Filtered.runLoop]
    | cons f fs ih =>
      rcases ho : (Filtered.processFile probe enc ff f).1 with _ | _ | _ <;>
        simp [Filtered.runLoop_cons, ho, Filtered.Counts.bump] <;> omega

/-- C10: the output naming is not injective: the distinct sibling inputs
`d/a.mp4` and `d/a.mkv` both map to output `a_av1.mkv` in the same
directory (`out/a_av1.mkv` for the generic variant, `d/a_av1.mkv` for the
filtered one), and the spawned command carries the unconditional
overwrite flag `-y`, so the later conversion overwrites the earlier
output. -/
theorem spec_C10_output_collision :
    ("d/a.mp4" : String) ≠ "d/a.mkv"
    ∧ (Generic.convertVideoToAV1 encZero "d/a.mp4" "out" "ffmpeg").2
        = [⟨"ffmpeg", ["-i", "d/a.mp4", "-c:v", "av1_qsv", "-c:a", "copy", "-y",
            "out/a_av1.mkv"]⟩]
    ∧ (Generic.convertVideoToAV1 encZero "d/a.mkv" "out" "ffmpeg").2
        = [⟨"ffmpeg", ["-i", "d/a.mkv", "-c:v", "av1_qsv", "-c:a", "copy", "-y",
            "out/a_av1.mkv"]⟩]
    ∧ (Filtered.convertVideoToAV1 probeNone encZero "d/a.mp4" "ffmpeg").2
        = [⟨"ffmpeg", ["-i", "d/a.mp4", "-c:v", "av1_qsv", "-c:a", "copy", "-y",
            "d/a_av1.mkv"]⟩]
    ∧ (Filtered.convertVideoToAV1 probeNone encZero "d/a.mkv" "ffmpeg").2
        = [⟨"ffmpeg", ["-i", "d/a.mkv", "-c:v", "av1_qsv", "-c:a", "copy", "-y",
            "d/a_av1.mkv"]⟩] := by
  decide

end ConvertAV1
